import Mathlib

/-!
Verification development for the `mznlauncher` launcher: a shallow embedding of
the process supervisor (`src/timeout.rs`) and of the streaming result parser /
path labelling of `src/main.rs`, with theorems checking the design document
against the code.

Conventions of the embedding:
* OS process identifiers are `Nat`; exit statuses are `Int`.
* Fallible Rust operations (`Result<_, Error>`) are `Except Error _`; a Rust
  `unwrap` panic is `Option.none`.
* The observable side effects of the cleanup path (enumerating the descendant
  tree, sending a termination signal) are recorded as an explicit event trace.
* `f32` values arising here are exact short decimal literals, modelled as
  exact rationals (`ℚ`).
-/

namespace Mznlauncher

/-- The error type of `src/errors.rs`. -/
inductive Error where
  | poisoned
  | io (msg : String)
  | kill (msg : String)
deriving DecidableEq, Repr

instance {ε α : Type} [DecidableEq ε] [DecidableEq α] : DecidableEq (Except ε α) := fun x y =>
  match x, y with
  | Except.ok a, Except.ok b =>
    if h : a = b then isTrue (by rw [h])
    else isFalse (by intro he; cases he; exact h rfl)
  | Except.error a, Except.error b =>
    if h : a = b then isTrue (by rw [h])
    else isFalse (by intro he; cases he; exact h rfl)
  | Except.ok _, Except.error _ => isFalse (by intro he; cases he)
  | Except.error _, Except.ok _ => isFalse (by intro he; cases he)

/-- Observable actions of the cleanup path of `timeout.rs`. -/
inductive Event where
  | enumerate (root : Nat)
  | kill (pid : Nat)
deriving DecidableEq, Repr

/-- The OS facilities `maybe_cleanup` (timeout.rs 76-84) interacts with:
the result of the final non-blocking exit probe (`child.try_wait()`), the
child's pid (`child.id()`), the descendant enumeration and the per-pid
termination signal of the `killall` crate. -/
structure CleanupWorld where
  tryWait : Except Error (Option Int)
  childId : Nat
  listDesc : Nat → Except Error (List Nat)
  killPid : Nat → Except Error Unit

/-- The kill loop of `maybe_cleanup` (timeout.rs 79-81):
`for kid in childrens { kill(&kid)?; }`.  The `?` operator returns at the
first failure.  Alongside the Rust result we record which pids were actually
sent a signal. -/
def killEach (killPid : Nat → Except Error Unit) : List Nat → Except Error Unit × List Event
  | [] => (Except.ok (), [])
  | kid :: rest =>
    match killPid kid with
    | Except.error e => (Except.error e, [Event.kill kid])
    | Except.ok _ =>
      let r := killEach killPid rest
      (r.1, Event.kill kid :: r.2)

/-- `maybe_cleanup` (timeout.rs 76-84): probe the child once more; if it has
not exited, enumerate the descendants of its pid and signal each of them. -/
def maybe_cleanup (w : CleanupWorld) : Except Error Unit × List Event :=
  match w.tryWait with
  | Except.error e => (Except.error e, [])
  | Except.ok (some _) => (Except.ok (), [])
  | Except.ok none =>
    match w.listDesc w.childId with
    | Except.error e => (Except.error e, [Event.enumerate w.childId])
    | Except.ok childrens =>
      let r := killEach w.killPid childrens
      (r.1, Event.enumerate w.childId :: r.2)

/-- A snapshot of the OS process table: entries `(pid, parent pid)` of the
live processes. -/
def childrenOf (table : List (Nat × Nat)) (p : Nat) : List Nat :=
  (table.filter fun e => e.2 == p).map Prod.fst

/-- Breadth-first collection of the strict descendants of a frontier, with
fuel bounding the depth. -/
def descend (table : List (Nat × Nat)) : Nat → List Nat → List Nat
  | 0, _ => []
  | fuel + 1, frontier =>
    let next := frontier.flatMap (childrenOf table)
    if next.isEmpty then [] else next ++ descend table fuel next

/-- Modelled from the spec: `killall::list_descendants` (the `killall` crate is
not part of this repository).  Per the spec it returns the transitive
descendant set of the given pid, "the root process is included implicitly as
part of, or alongside, this enumeration". -/
def list_descendants (table : List (Nat × Nat)) (root : Nat) : List Nat :=
  root :: descend table table.length [root]

/-- Outcome of the bounded wait. -/
inductive WaitOutcome where
  | completed
  | timedOut
deriving DecidableEq, Repr

/-- Modelled from the spec: `std::sync::Condvar::wait_timeout_while` as used at
timeout.rs 44-47 with predicate `!done` (the standard library is not part of
this repository).  Each wake-up of the waiting thread is modelled as a pair
`(done flag observed under the lock, elapsed time at the wake)`; the waiter
keeps waiting unless the flag is set or the timeout has elapsed.  An exhausted
wake list stands for the final wake the OS delivers when the timeout expires. -/
def wait_timeout_while (timeoutMs : Nat) : List (Bool × Nat) → WaitOutcome
  | [] => WaitOutcome.timedOut
  | (done, elapsed) :: rest =>
    if done then WaitOutcome.completed
    else if timeoutMs ≤ elapsed then WaitOutcome.timedOut
    else wait_timeout_while timeoutMs rest

/-- Effect of one iteration of the locked section of
`loop_until_process_is_finished` (timeout.rs 61-68) on the shared state. -/
structure WatcherOut where
  done : Bool
  breaks : Bool
  notified : Bool
deriving DecidableEq, Repr

/-- One iteration of the locked section of `loop_until_process_is_finished`
(timeout.rs 61-68): break when the flag is already set, otherwise set it and
notify the condition variable exactly when the poll observes an exit. -/
def loop_until_process_is_finished_step
    (tryWaitRes : Except Error (Option Int)) (done : Bool) : WatcherOut :=
  if done then ⟨done, true, false⟩
  else
    match tryWaitRes with
    | Except.ok (some _) => ⟨true, false, true⟩
    | _ => ⟨done, false, false⟩

/-- The supervisor's unconditional `*done = true` right after the bounded wait
returns (timeout.rs 49-50). -/
def supervisor_set_done (_done : Bool) : Bool := true

/-- The tail of `timeout` (timeout.rs 44-53): perform the bounded wait, set
the flag, then run the cleanup.  The cleanup decision depends only on the
final exit probe, not on the wait outcome. -/
def timeoutRun (timeoutMs : Nat) (wakes : List (Bool × Nat)) (w : CleanupWorld) :
    Except Error Unit × List Event :=
  let _outcome := wait_timeout_while timeoutMs wakes
  maybe_cleanup w

/-- Number of leading decimal digits of a character list (the greedy extent of
a `\d+` repetition). -/
def digitRunLen (cs : List Char) : Nat :=
  (cs.takeWhile Char.isDigit).length

/-- Leftmost-first match, at the start of `cs`, of the regex fragment
`(\d+.\d+)` followed by the literal `tail` — note that the `.` in the source
patterns is unescaped and matches any character.  Both `\d+` repetitions are
greedy and backtrack, exactly as in the `regex` crate's leftmost-first
semantics; the returned value is the text captured by the group. -/
def capNumLike (tail : List Char) (cs : List Char) : Option (List Char) :=
  let maxD1 := digitRunLen cs
  ((List.range maxD1).map fun i => maxD1 - i).findSome? fun k =>
    match cs.drop k with
    | [] => none
    | c :: rest =>
      let maxD2 := digitRunLen rest
      ((List.range maxD2).map fun j => maxD2 - j).findSome? fun m =>
        if tail.isPrefixOf (rest.drop m) then
          some (cs.take k ++ c :: rest.take m)
        else none

/-- `re_makespan.captures(&line)` for `^% makespan: (\d+.\d+)`
(main.rs 118-119): the capture of group 1, when the line matches. -/
def captures_makespan (line : String) : Option String :=
  if ("% makespan: ".data).isPrefixOf line.data then
    (capNumLike [] (line.data.drop 12)).map fun cs => ⟨cs⟩
  else none

/-- `re_permutation.captures(&line)` for `^% permutation: \[(.*)\]`
(main.rs 120-121): the greedy `(.*)` capture extends to just before the last
closing bracket of the line. -/
def captures_permutation (line : String) : Option String :=
  if ("% permutation: [".data).isPrefixOf line.data then
    let rest := line.data.drop 16
    if rest.contains ']' then
      some ⟨rest.take (rest.length - 1 - rest.reverse.findIdx (fun c => c = ']'))⟩
    else none
  else none

/-- `re_elapsed.captures(&line)` for `^% time elapsed: (\d+.\d+) s`
(main.rs 122-123). -/
def captures_elapsed (line : String) : Option String :=
  if ("% time elapsed: ".data).isPrefixOf line.data then
    (capNumLike (" s".data) (line.data.drop 16)).map fun cs => ⟨cs⟩
  else none

/-- Numeric value of a digit string. -/
def natOfDigits (cs : List Char) : Nat :=
  cs.foldl (fun acc c => 10 * acc + (c.toNat - 48)) 0

/-- `str::parse::<f32>()` on the captures produced here, with the value
modelled as an exact rational.  The model covers the plain decimal forms
`digits` and `digits.digits` (with one side possibly empty); every numeric
literal appearing in the theorems below is exactly representable in `f32`, so
on those inputs the model agrees with Rust.  Shapes Rust rejects (e.g. when
the unescaped `.` of the pattern matched a letter) are `none`, modelling the
`unwrap` panic. -/
def parse_f32 (s : String) : Option ℚ :=
  match s.data.splitOn '.' with
  | [ds] =>
    if ds ≠ [] ∧ ds.all Char.isDigit then some (natOfDigits ds) else none
  | [as, bs] =>
    if (as ≠ [] ∨ bs ≠ []) ∧ as.all Char.isDigit ∧ bs.all Char.isDigit then
      some ((natOfDigits as : ℚ) + (natOfDigits bs : ℚ) / 10 ^ bs.length)
    else none
  | _ => none

/-- `"...".replace(",", "")` as used on the permutation capture
(main.rs 132). -/
def stripCommas (s : String) : String :=
  ⟨s.data.filter fun c => c ≠ ','⟩

/-- `f32::MAX`, the initial value of the `makespan` accumulator
(main.rs 114). -/
def f32MAX : ℚ := (2 ^ 24 - 1) * 2 ^ 104

/-- The mutable accumulators of the logger loop of
`spawn_tsptw_output_logger` (main.rs 114-116). -/
structure TsptwRecord where
  makespan : ℚ
  permutation : String
  elapsed : ℚ
deriving DecidableEq, Repr

/-- Initial accumulator values (main.rs 114-116). -/
def initTsptwRecord : TsptwRecord :=
  { makespan := f32MAX, permutation := "-- no solution --", elapsed := 0 }

/-- The makespan update of one loop iteration (main.rs 128-130); `none`
models the panic of `.parse::<f32>().unwrap()`. -/
def updMakespan (r : TsptwRecord) (line : String) : Option TsptwRecord :=
  match captures_makespan line with
  | some cap => (parse_f32 cap).map fun v => { r with makespan := v }
  | none => some r

/-- The permutation update of one loop iteration (main.rs 131-133). -/
def updPermutation (r : TsptwRecord) (line : String) : TsptwRecord :=
  match captures_permutation line with
  | some cap => { r with permutation := stripCommas cap }
  | none => r

/-- The elapsed-time update of one loop iteration (main.rs 134-136); `none`
models the panic of `.parse::<f32>().unwrap()`. -/
def updElapsed (r : TsptwRecord) (line : String) : Option TsptwRecord :=
  match captures_elapsed line with
  | some cap => (parse_f32 cap).map fun v => { r with elapsed := v }
  | none => some r

/-- All three field updates of one loop iteration, in source order
(main.rs 128-136). -/
def updateRecord (r : TsptwRecord) (line : String) : Option TsptwRecord :=
  (updMakespan r line).bind fun r1 => updElapsed (updPermutation r1 line) line

/-- One emitted result row (main.rs 139-143).  The exact column widths of the
`println!` format are a presentation detail; the row records the printed
values. -/
structure Row where
  iname : String
  makespan : ℚ
  elapsed : ℚ
  permutation : String
deriving DecidableEq, Repr

/-- One full iteration of the logger loop (main.rs 125-144): the field
updates, then the sentinel check that emits a row from the current (not
reset) accumulators. -/
def processLine (iname : String) (r : TsptwRecord) (line : String) :
    Option (TsptwRecord × List Row) :=
  (updateRecord r line).map fun r1 =>
    (r1, if line = "----------" then [⟨iname, r1.makespan, r1.elapsed, r1.permutation⟩] else [])

/-- One read from `stdout.lines()`: a line, or an I/O error on which
`line.unwrap()` (main.rs 126) panics. -/
inductive LineRead where
  | ok (line : String)
  | err
deriving DecidableEq, Repr

/-- The logger loop (main.rs 125-144) over a stream of line reads, returning
the rows it emits.  A read error or a numeric-parse panic terminates the
(detached) logger thread: nothing further is emitted. -/
def runLogger (iname : String) (r : TsptwRecord) : List LineRead → List Row
  | [] => []
  | LineRead.err :: _ => []
  | LineRead.ok l :: rest =>
    match processLine iname r l with
    | none => []
    | some (r1, rows) => rows ++ runLogger iname r1 rest

/-- `spawn_tsptw_output_logger` (main.rs 112-146): run the logger loop from
the initial accumulators. -/
def spawn_tsptw_output_logger (iname : String) (stream : List LineRead) : List Row :=
  runLogger iname initTsptwRecord stream

/-- The composition in `invoke_tsptw_mzn` + `main` (main.rs 82-109, 34-37):
the logger thread is detached, the supervised `timeout` call runs
independently; the pair holds the supervisor result and the emitted rows. -/
def invoke_and_supervise (iname : String) (stream : List LineRead)
    (timeoutMs : Nat) (wakes : List (Bool × Nat)) (w : CleanupWorld) :
    (Except Error Unit × List Event) × List Row :=
  (timeoutRun timeoutMs wakes w, spawn_tsptw_output_logger iname stream)

/-- A component of a Unix path, as in `std::path::Component` (no prefixes on
Unix). -/
inductive Component where
  | rootDir
  | curDir
  | parentDir
  | normal (s : String)
deriving DecidableEq, Repr

/-- One `/`-separated piece of a path as a component; empty pieces (repeated
or trailing separators) disappear. -/
def toComp : String → Option Component
  | "" => none
  | "." => some Component.curDir
  | ".." => some Component.parentDir
  | s => some (Component.normal s)

/-- `Path::components()` on Unix: a leading `/` is the root component, `.`
pieces are normalized away except a leading one on a relative path.
(The split runs over the character list so that it stays reducible.) -/
def components (s : String) : List Component :=
  let parts := ((s.data.splitOn '/').map fun cs => (⟨cs⟩ : String)).filterMap toComp
  if s.data.head? = some '/' then
    Component.rootDir :: parts.filter (fun c => c ≠ Component.curDir)
  else
    match parts with
    | Component.curDir :: rest =>
      Component.curDir :: rest.filter (fun c => c ≠ Component.curDir)
    | _ => parts.filter (fun c => c ≠ Component.curDir)

/-- `Path::parent()` at the component level: strip the final component;
`none` for an empty path or a path that ends in the root. -/
def parentComps (cs : List Component) : Option (List Component) :=
  match cs.getLast? with
  | some Component.rootDir => none
  | none => none
  | some _ => some cs.dropLast

/-- `Path::file_name()` at the component level: the final component when it
is a normal named component. -/
def fileNameComps (cs : List Component) : Option String :=
  match cs.getLast? with
  | some (Component.normal s) => some s
  | _ => none

/-- `name` (main.rs 185-196).  `none` models the panic of the
`x.file_name().unwrap()` inside the parent branch; `unwrap_or_default`
turns the two other lookups' `None` into `""`. -/
def name (fname : String) : Option String :=
  let comps := components fname
  let bench? : Option String :=
    match parentComps comps with
    | none => some ""
    | some p => fileNameComps p
  bench?.map fun bench =>
    let nm := (fileNameComps comps).getD ""
    bench ++ "/" ++ nm

/-! ## Helper lemmas -/

theorem killEach_all_ok (killPid : Nat → Except Error Unit) (l : List Nat)
    (h : ∀ p ∈ l, killPid p = Except.ok ()) :
    killEach killPid l = (Except.ok (), l.map Event.kill) := by
  induction l with
  | nil => rfl
  | cons k rest ih =>
    have hk := h k (List.mem_cons_self k rest)
    have hrest : ∀ p ∈ rest, killPid p = Except.ok () := fun p hp =>
      h p (List.mem_cons_of_mem k hp)
    simp [killEach, hk, ih hrest]

theorem killEach_first_error (killPid : Nat → Except Error Unit)
    (pre post : List Nat) (k : Nat) (e : Error)
    (hpre : ∀ p ∈ pre, killPid p = Except.ok ())
    (hk : killPid k = Except.error e) :
    killEach killPid (pre ++ k :: post)
      = (Except.error e, (pre ++ [k]).map Event.kill) := by
  induction pre with
  | nil => simp [killEach, hk]
  | cons p rest ih =>
    have hp := hpre p (List.mem_cons_self p rest)
    have hrest : ∀ q ∈ rest, killPid q = Except.ok () := fun q hq =>
      hpre q (List.mem_cons_of_mem p hq)
    simp [killEach, hp, ih hrest]

theorem flatMap_childrenOf_nil (table : List (Nat × Nat)) (kids : List Nat)
    (hleaf : ∀ k ∈ kids, childrenOf table k = []) :
    kids.flatMap (childrenOf table) = [] := by
  induction kids with
  | nil => rfl
  | cons k rest ih =>
    have hk := hleaf k (List.mem_cons_self k rest)
    have hrest : ∀ q ∈ rest, childrenOf table q = [] := fun q hq =>
      hleaf q (List.mem_cons_of_mem k hq)
    simp [List.flatMap_cons, hk, ih hrest]

theorem descend_one_level (table : List (Nat × Nat)) (root : Nat) (kids : List Nat)
    (fuel : Nat) (hkids : childrenOf table root = kids)
    (hleaf : ∀ k ∈ kids, childrenOf table k = []) :
    descend table (fuel + 1) [root] = kids := by
  have hfirst : [root].flatMap (childrenOf table) = kids := by
    simp [List.flatMap_cons, hkids]
  rcases hk : kids with _ | ⟨k0, krest⟩
  · simp [descend, hfirst, hk]
  · rw [← hk]
    have hne : kids.isEmpty = false := by rw [hk]; rfl
    simp only [descend, hfirst, hne, Bool.false_eq_true, if_false]
    rcases fuel with _ | g
    · simp [descend]
    · simp [descend, flatMap_childrenOf_nil table kids hleaf]

theorem list_descendants_of_leaf_kids (table : List (Nat × Nat)) (root : Nat)
    (kids : List Nat) (hkids : childrenOf table root = kids)
    (hleaf : ∀ k ∈ kids, childrenOf table k = []) :
    list_descendants table root = root :: kids := by
  unfold list_descendants
  rcases htl : table.length with _ | n
  · have htab : table = [] := List.length_eq_zero.mp htl
    subst htab
    simp only [childrenOf, List.filter_nil, List.map_nil] at hkids
    rw [← hkids]
    rfl
  · rw [descend_one_level table root kids n hkids hleaf]

/-! ## Claim theorems: process supervisor -/

/-- C1.  When the final exit probe after the bounded wait reports the child
still running, the supervisor enumerates the descendant tree rooted at the
child's pid and signals every member of it, root included: for a root with N
still-alive children the killed set has N+1 elements. -/
theorem deadline_targets_whole_tree (table : List (Nat × Nat)) (root : Nat)
    (kids : List Nat) (killPid : Nat → Except Error Unit)
    (hkids : childrenOf table root = kids)
    (hleaf : ∀ k ∈ kids, childrenOf table k = [])
    (hok : ∀ p ∈ root :: kids, killPid p = Except.ok ()) :
    maybe_cleanup ⟨Except.ok none, root,
        fun p => Except.ok (list_descendants table p), killPid⟩
      = (Except.ok (), Event.enumerate root :: (root :: kids).map Event.kill)
    ∧ ((root :: kids).map Event.kill).length = kids.length + 1 := by
  constructor
  · show (match Except.ok (list_descendants table root) with
      | Except.error e => (Except.error e, [Event.enumerate root])
      | Except.ok childrens =>
        let r := killEach killPid childrens
        (r.1, Event.enumerate root :: r.2)) = _
    rw [list_descendants_of_leaf_kids table root kids hkids hleaf]
    simp [killEach_all_ok killPid (root :: kids) hok]
  · simp

/-- Witness for C1: a root (pid 1) with the two live children 2 and 3; all
three processes are targeted. -/
theorem deadline_targets_whole_tree_witness :
    maybe_cleanup ⟨Except.ok none, 1,
        fun p => Except.ok (list_descendants [(2, 1), (3, 1)] p),
        fun _ => Except.ok ()⟩
      = (Except.ok (), [Event.enumerate 1, Event.kill 1, Event.kill 2, Event.kill 3])
    ∧ ([1, 2, 3].map Event.kill).length = [2, 3].length + 1 :=
  deadline_targets_whole_tree [(2, 1), (3, 1)] 1 [2, 3] (fun _ => Except.ok ())
    (by decide) (by decide) (fun p _ => rfl)

/-- Concrete cleanup world for C2: three enumerated descendants, the signal
to the first of them fails. -/
def killAbortWorld : CleanupWorld :=
  ⟨Except.ok none, 1, fun _ => Except.ok [10, 20, 30],
   fun p => if p = 10 then Except.error (Error.kill "permission denied") else Except.ok ()⟩

/-- Counterexample to C2 as stated: descendants 20 and 30 are part of the
enumerated set, but after the failed signal to 10 they are never attempted —
the kill loop `for kid in childrens { kill(&kid)?; }` aborts at the first
failure. -/
theorem kill_loop_aborts_on_first_failure :
    killAbortWorld.listDesc killAbortWorld.childId = Except.ok [10, 20, 30]
    ∧ (maybe_cleanup killAbortWorld).2 = [Event.enumerate 1, Event.kill 10]
    ∧ Event.kill 20 ∉ (maybe_cleanup killAbortWorld).2
    ∧ Event.kill 30 ∉ (maybe_cleanup killAbortWorld).2 := by
  decide

/-- C2 amended.  A failing termination signal is surfaced to the caller as an
error, but it aborts the kill loop: exactly the descendants up to and
including the first failing one are attempted, the rest are not. -/
theorem kill_failure_surfaced_but_aborts (w : CleanupWorld)
    (pre post : List Nat) (k : Nat) (e : Error)
    (hprobe : w.tryWait = Except.ok none)
    (henum : w.listDesc w.childId = Except.ok (pre ++ k :: post))
    (hpre : ∀ p ∈ pre, w.killPid p = Except.ok ())
    (hk : w.killPid k = Except.error e) :
    maybe_cleanup w
      = (Except.error e, Event.enumerate w.childId :: (pre ++ [k]).map Event.kill) := by
  unfold maybe_cleanup
  rw [hprobe, henum]
  simp [killEach_first_error w.killPid pre post k e hpre hk]

/-- Witness for C2's amended theorem, on `killAbortWorld`. -/
theorem kill_failure_surfaced_but_aborts_witness :
    maybe_cleanup killAbortWorld
      = (Except.error (Error.kill "permission denied"),
         [Event.enumerate 1, Event.kill 10]) :=
  kill_failure_surfaced_but_aborts killAbortWorld [] [20, 30] 10
    (Error.kill "permission denied") rfl rfl (by simp) (by decide)

/-- C3.  If the final non-blocking exit probe reports that the child already
exited, no descendant enumeration happens and no termination signal is sent:
the event trace is empty. -/
theorem natural_exit_no_kill (w : CleanupWorld) (st : Int)
    (h : w.tryWait = Except.ok (some st)) :
    maybe_cleanup w = (Except.ok (), []) := by
  unfold maybe_cleanup
  rw [h]

/-- Witness for C3: a world whose final probe reports exit status 0. -/
theorem natural_exit_no_kill_witness :
    maybe_cleanup ⟨Except.ok (some 0), 1,
        fun _ => Except.ok [10], fun _ => Except.ok ()⟩
      = (Except.ok (), []) :=
  natural_exit_no_kill _ 0 rfl

/-- C6.  The bounded wait ignores wake-ups that find the flag still unset
before the deadline (they merely re-enter the wait), and a wake sequence in
which the flag is never true can never make the wait return `completed`: the
wait returns only because `finished` became true or the timeout elapsed. -/
theorem wait_returns_only_on_finish_or_timeout (timeoutMs t : Nat)
    (rest evs : List (Bool × Nat)) (hspur : t < timeoutMs)
    (hall : ∀ e ∈ evs, e.1 = false) :
    wait_timeout_while timeoutMs ((false, t) :: rest)
      = wait_timeout_while timeoutMs rest
    ∧ wait_timeout_while timeoutMs evs ≠ WaitOutcome.completed := by
  constructor
  · simp [wait_timeout_while, Nat.not_le.mpr hspur]
  · induction evs with
    | nil => simp [wait_timeout_while]
    | cons ev tail ih =>
      have hev : ev.1 = false := hall ev (List.mem_cons_self ev tail)
      have htail : ∀ e ∈ tail, e.1 = false := fun e he =>
        hall e (List.mem_cons_of_mem ev he)
      rcases ev with ⟨d, el⟩
      simp only at hev
      subst hev
      by_cases hel : timeoutMs ≤ el
      · simp [wait_timeout_while, hel]
      · simpa [wait_timeout_while, hel] using ih htail

/-- Witness for C6: with a 10ms deadline, a spurious wake at 3ms is skipped,
and a wake sequence that never observes the flag cannot complete the wait. -/
theorem wait_returns_only_on_finish_or_timeout_witness :
    wait_timeout_while 10 [(false, 3), (true, 4)] = wait_timeout_while 10 [(true, 4)]
    ∧ wait_timeout_while 10 [(false, 1), (false, 2)] ≠ WaitOutcome.completed :=
  wait_returns_only_on_finish_or_timeout 10 3 [(true, 4)] [(false, 1), (false, 2)]
    (by decide) (by decide)

/-- C7.  The `finished` flag is monotone: one iteration of the watcher's
locked section either leaves the flag unchanged or raises it from false to
true, and the supervisor's post-wait write sets it to true; no step ever
resets it from true to false. -/
theorem finished_flag_monotone (r : Except Error (Option Int)) (done : Bool) :
    ((loop_until_process_is_finished_step r done).done = done
      ∨ (done = false ∧ (loop_until_process_is_finished_step r done).done = true))
    ∧ (supervisor_set_done done = done
      ∨ (done = false ∧ supervisor_set_done done = true)) := by
  constructor
  · cases done with
    | true => left; rfl
    | false =>
      rcases r with e | o
      · left; rfl
      · rcases o with _ | st
        · left; rfl
        · right; exact ⟨rfl, rfl⟩
  · cases done with
    | true => left; rfl
    | false => right; exact ⟨rfl, rfl⟩

/-! ## Helper lemmas: the logger's patterns on specific lines -/

theorem captures_makespan_sentinel : captures_makespan "----------" = none := by decide

theorem captures_permutation_sentinel : captures_permutation "----------" = none := by
  decide

theorem captures_elapsed_sentinel : captures_elapsed "----------" = none := by decide

/-- A line on which no field pattern matches leaves the accumulator record
untouched. -/
theorem updateRecord_inert (r : TsptwRecord) (line : String)
    (hm : captures_makespan line = none)
    (hp : captures_permutation line = none)
    (he : captures_elapsed line = none) :
    updateRecord r line = some r := by
  unfold updateRecord updMakespan updPermutation updElapsed
  rw [hm, hp, he]
  rfl

/-- The logger's accumulator after any line is a function of the line alone in
each updated field; in particular whether an update panics does not depend on
the current record. -/
theorem runLogger_stops_at_err (iname : String) (r : TsptwRecord)
    (pre suffix : List LineRead) :
    runLogger iname r (pre ++ LineRead.err :: suffix)
      = runLogger iname r (pre ++ [LineRead.err]) := by
  induction pre generalizing r with
  | nil => rfl
  | cons x rest ih =>
    cases x with
    | err => rfl
    | ok s =>
      simp only [List.cons_append, runLogger, List.append_eq]
      cases h : processLine iname r s with
      | none => rfl
      | some p =>
        obtain ⟨r1, rows⟩ := p
        show rows ++ runLogger iname r1 (rest ++ LineRead.err :: suffix)
          = rows ++ runLogger iname r1 (rest ++ [LineRead.err])
        rw [ih r1]

theorem runLogger_stops_at_bad_line (iname : String) (r : TsptwRecord)
    (pre suffix : List LineRead) (l : String)
    (hfail : ∀ r', updateRecord r' l = none) :
    runLogger iname r (pre ++ LineRead.ok l :: suffix)
      = runLogger iname r (pre ++ [LineRead.ok l]) := by
  induction pre generalizing r with
  | nil =>
    simp only [List.nil_append, runLogger, processLine, hfail r]
    rfl
  | cons x rest ih =>
    cases x with
    | err => rfl
    | ok s =>
      simp only [List.cons_append, runLogger, List.append_eq]
      cases h : processLine iname r s with
      | none => rfl
      | some p =>
        obtain ⟨r1, rows⟩ := p
        show rows ++ runLogger iname r1 (rest ++ LineRead.ok l :: suffix)
          = rows ++ runLogger iname r1 (rest ++ [LineRead.ok l])
        rw [ih r1]

theorem parse_f32_line1 : parse_f32 "12.5000" = some 12.5 := by
  have hsplit : "12.5000".data.splitOn '.' = [['1', '2'], ['5', '0', '0', '0']] := by
    decide
  have hc : (['1', '2'] ≠ [] ∨ ['5', '0', '0', '0'] ≠ ([] : List Char))
      ∧ ['1', '2'].all Char.isDigit ∧ ['5', '0', '0', '0'].all Char.isDigit := by decide
  have h1 : natOfDigits ['1', '2'] = 12 := by decide
  have h2 : natOfDigits ['5', '0', '0', '0'] = 5000 := by decide
  unfold parse_f32
  simp only [hsplit, if_pos hc, h1, h2]
  norm_num

theorem parse_f32_line2 : parse_f32 "9.2500" = some 9.25 := by
  have hsplit : "9.2500".data.splitOn '.' = [['9'], ['2', '5', '0', '0']] := by decide
  have hc : (['9'] ≠ [] ∨ ['2', '5', '0', '0'] ≠ ([] : List Char))
      ∧ ['9'].all Char.isDigit ∧ ['2', '5', '0', '0'].all Char.isDigit := by decide
  have h1 : natOfDigits ['9'] = 9 := by decide
  have h2 : natOfDigits ['2', '5', '0', '0'] = 2500 := by decide
  unfold parse_f32
  simp only [hsplit, if_pos hc, h1, h2]
  norm_num

/-! ## Claim theorems: result stream parser -/

/-- C4.  A sentinel line emits exactly one row holding the label and the
current accumulator values — the record itself is not reset; a stream whose
last reported objective before the sentinel is 9.2500 yields a row showing
9.2500 (not the earlier 12.5000); and the solution capture is stored with its
commas stripped. -/
theorem sentinel_emits_current_record (iname : String) (r : TsptwRecord) :
    processLine iname r "----------"
      = some (r, [⟨iname, r.makespan, r.elapsed, r.permutation⟩])
    ∧ spawn_tsptw_output_logger iname
        [LineRead.ok "% makespan: 12.5000", LineRead.ok "% makespan: 9.2500",
         LineRead.ok "----------"]
      = [⟨iname, 9.25, 0, "-- no solution --"⟩]
    ∧ (updateRecord r "% permutation: [1, 2, 3]").map TsptwRecord.permutation
      = some "1 2 3" := by
  refine ⟨?_, ?_, ?_⟩
  · have hupd : updateRecord r "----------" = some r :=
      updateRecord_inert r _ captures_makespan_sentinel captures_permutation_sentinel
        captures_elapsed_sentinel
    simp [processLine, hupd]
  · have c1 : captures_makespan "% makespan: 12.5000" = some "12.5000" := by decide
    have c1p : captures_permutation "% makespan: 12.5000" = none := by decide
    have c1e : captures_elapsed "% makespan: 12.5000" = none := by decide
    have c2 : captures_makespan "% makespan: 9.2500" = some "9.2500" := by decide
    have c2p : captures_permutation "% makespan: 9.2500" = none := by decide
    have c2e : captures_elapsed "% makespan: 9.2500" = none := by decide
    have h1 : updateRecord initTsptwRecord "% makespan: 12.5000"
        = some ⟨12.5, "-- no solution --", 0⟩ := by
      unfold updateRecord updMakespan updPermutation updElapsed
      simp only [c1, c1p, c1e, parse_f32_line1]
      rfl
    have h2 : updateRecord ⟨12.5, "-- no solution --", 0⟩ "% makespan: 9.2500"
        = some ⟨9.25, "-- no solution --", 0⟩ := by
      unfold updateRecord updMakespan updPermutation updElapsed
      simp only [c2, c2p, c2e, parse_f32_line2]
      rfl
    have h3 : updateRecord ⟨9.25, "-- no solution --", 0⟩ "----------"
        = some ⟨9.25, "-- no solution --", 0⟩ :=
      updateRecord_inert _ _ captures_makespan_sentinel captures_permutation_sentinel
        captures_elapsed_sentinel
    simp [spawn_tsptw_output_logger, runLogger, processLine, h1, h2, h3]
  · have hm : captures_makespan "% permutation: [1, 2, 3]" = none := by decide
    have hp : captures_permutation "% permutation: [1, 2, 3]" = some "1, 2, 3" := by
      decide
    have he : captures_elapsed "% permutation: [1, 2, 3]" = none := by decide
    have hs : stripCommas "1, 2, 3" = "1 2 3" := by decide
    unfold updateRecord updMakespan updPermutation updElapsed
    rw [hm, hp, he]
    simp [hs]

/-- C5.  An unreadable line, or a captured numeric field that fails to parse,
terminates the logger at that line: the rows emitted do not depend on the
rest of the stream.  The supervisor's result is computed from its own world
alone, so the logger's death affects neither the process outcome nor
completion detection. -/
theorem logger_failure_is_local (iname : String) (r : TsptwRecord)
    (pre suffix : List LineRead) (l : String) (timeoutMs : Nat)
    (wakes : List (Bool × Nat)) (w : CleanupWorld)
    (stream1 stream2 : List LineRead)
    (hfail : ∀ r', updateRecord r' l = none) :
    runLogger iname r (pre ++ LineRead.err :: suffix)
      = runLogger iname r (pre ++ [LineRead.err])
    ∧ runLogger iname r (pre ++ LineRead.ok l :: suffix)
      = runLogger iname r (pre ++ [LineRead.ok l])
    ∧ (invoke_and_supervise iname stream1 timeoutMs wakes w).1
      = (invoke_and_supervise iname stream2 timeoutMs wakes w).1 :=
  ⟨runLogger_stops_at_err iname r pre suffix,
   runLogger_stops_at_bad_line iname r pre suffix l hfail, rfl⟩

/-- Witness for C5: a read error and the unparseable capture `12x3` (the
unescaped `.` of the pattern matched the letter `x`) both stop the logger
before a later sentinel; the supervisor result ignores the stream. -/
theorem logger_failure_is_local_witness :
    runLogger "x" initTsptwRecord [LineRead.err, LineRead.ok "----------"]
      = runLogger "x" initTsptwRecord [LineRead.err]
    ∧ runLogger "x" initTsptwRecord
        [LineRead.ok "% makespan: 12x3", LineRead.ok "----------"]
      = runLogger "x" initTsptwRecord [LineRead.ok "% makespan: 12x3"]
    ∧ (invoke_and_supervise "x" [LineRead.ok "----------"] 10 []
        ⟨Except.ok (some 0), 1, fun _ => Except.ok [], fun _ => Except.ok ()⟩).1
      = (invoke_and_supervise "x" [] 10 []
        ⟨Except.ok (some 0), 1, fun _ => Except.ok [], fun _ => Except.ok ()⟩).1 :=
  logger_failure_is_local "x" initTsptwRecord [] [LineRead.ok "----------"]
    "% makespan: 12x3" 10 [] ⟨Except.ok (some 0), 1, fun _ => Except.ok [], fun _ => Except.ok ()⟩
    [LineRead.ok "----------"] [] (fun _ => rfl)

/-- C8.  If no metric line precedes the first sentinel, the row emitted at
that sentinel carries the initial placeholders: the maximal `f32` objective,
zero elapsed time, and the no-solution text. -/
theorem first_sentinel_emits_placeholders (iname : String) (pre : List String)
    (rest : List LineRead)
    (hpre : ∀ l ∈ pre, captures_makespan l = none ∧ captures_permutation l = none
        ∧ captures_elapsed l = none ∧ l ≠ "----------") :
    spawn_tsptw_output_logger iname
        (pre.map LineRead.ok ++ LineRead.ok "----------" :: rest)
      = ⟨iname, f32MAX, 0, "-- no solution --"⟩ :: runLogger iname initTsptwRecord rest := by
  unfold spawn_tsptw_output_logger
  induction pre with
  | nil =>
    have hupd : updateRecord initTsptwRecord "----------" = some initTsptwRecord :=
      updateRecord_inert _ _ captures_makespan_sentinel captures_permutation_sentinel
        captures_elapsed_sentinel
    simp only [List.map_nil, List.nil_append, runLogger, processLine, hupd]
    rfl
  | cons l rest' ih =>
    obtain ⟨hm, hp, he, hs⟩ := hpre l (List.mem_cons_self l rest')
    have hupd : updateRecord initTsptwRecord l = some initTsptwRecord :=
      updateRecord_inert _ _ hm hp he
    have ih' := ih fun q hq => hpre q (List.mem_cons_of_mem l hq)
    simp only [List.map_cons, List.cons_append, runLogger, processLine, hupd,
      Option.map_some, if_neg hs, List.nil_append]
    exact ih'

/-- Witness for C8: one non-metric line, then the sentinel. -/
theorem first_sentinel_emits_placeholders_witness :
    spawn_tsptw_output_logger "bench1/inst01"
        [LineRead.ok "hello", LineRead.ok "----------"]
      = [⟨"bench1/inst01", f32MAX, 0, "-- no solution --"⟩] :=
  first_sentinel_emits_placeholders "bench1/inst01" ["hello"] [] (by decide)

/-- C9.  The per-line record update is idempotent: applying the update twice
with the same line yields the same record (and the same panic behaviour) as
applying it once. -/
theorem updateRecord_idempotent (r : TsptwRecord) (line : String) :
    (updateRecord r line).bind (fun r1 => updateRecord r1 line)
      = updateRecord r line := by
  unfold updateRecord updMakespan updPermutation updElapsed
  cases hm : captures_makespan line with
  | none =>
    cases hp : captures_permutation line with
    | none =>
      cases he : captures_elapsed line with
      | none => rfl
      | some ce =>
        cases hv : parse_f32 ce with
        | none => simp [hv]
        | some v => simp [hv]
    | some cp =>
      cases he : captures_elapsed line with
      | none => simp
      | some ce =>
        cases hv : parse_f32 ce with
        | none => simp [hv]
        | some v => simp [hv]
  | some cm =>
    cases hw : parse_f32 cm with
    | none => simp [hw]
    | some u =>
      cases hp : captures_permutation line with
      | none =>
        cases he : captures_elapsed line with
        | none => simp [hw]
        | some ce =>
          cases hv : parse_f32 ce with
          | none => simp [hw, hv]
          | some v => simp [hw, hv]
      | some cp =>
        cases he : captures_elapsed line with
        | none => simp [hw]
        | some ce =>
          cases hv : parse_f32 ce with
          | none => simp [hw, hv]
          | some v => simp [hw, hv]

/-! ## Claim theorems: run labelling -/

/-- Counterexample to C10 as stated: `/file.txt` has a directory component
(the root directory) before its file name, yet `name` panics on it — the
parent path is `/`, whose `file_name()` is `None`, and the code unwraps it. -/
theorem name_panics_on_rooted_file :
    components "/file.txt" = [Component.rootDir, Component.normal "file.txt"]
    ∧ name "/file.txt" = none := by decide

/-- C10 amended.  When the two final components are a named directory and a
file name, `name` joins them with `/`; for a bare file name — and likewise
when the component preceding the file name is the root directory or `.` —
the parent directory has no file name and `name` panics. -/
theorem name_characterization (fname d f : String) (cs : List Component) :
    (components fname = cs ++ [Component.normal d, Component.normal f] →
      name fname = some (d ++ "/" ++ f))
    ∧ (components fname = [Component.normal f] → name fname = none)
    ∧ (components fname = [Component.rootDir, Component.normal f] → name fname = none)
    ∧ (components fname = [Component.curDir, Component.normal f] → name fname = none) := by
  refine ⟨fun h => ?_, fun h => ?_, fun h => ?_, fun h => ?_⟩
  · simp only [name]
    rw [h]
    have hassoc : cs ++ [Component.normal d, Component.normal f]
        = (cs ++ [Component.normal d]) ++ [Component.normal f] := by
      simp
    rw [hassoc]
    unfold parentComps fileNameComps
    simp only [List.getLast?_concat, List.dropLast_concat]
    rfl
  · simp only [name]
    rw [h]
    rfl
  · simp only [name]
    rw [h]
    rfl
  · simp only [name]
    rw [h]
    rfl

/-- Witness for C10's amended theorem: `a/b/c` labels as `b/c`; the bare
`c`, the rooted `/c` and the dot-relative `./c` all panic. -/
theorem name_characterization_witness :
    name "a/b/c" = some "b/c" ∧ name "c" = none
    ∧ name "/c" = none ∧ name "./c" = none :=
  ⟨(name_characterization "a/b/c" "b" "c" [Component.normal "a"]).1 (by decide),
   (name_characterization "c" "d" "c" []).2.1 (by decide),
   (name_characterization "/c" "d" "c" []).2.2.1 (by decide),
   (name_characterization "./c" "d" "c" []).2.2.2 (by decide)⟩

end Mznlauncher
